import Mathlib

/-
Shallow embedding of the document-sync engine of the repository
(main.js together with the renderer's sync guard).

Modelling conventions:
* ISO-8601 timestamp strings and "YYYY-MM-DD" date strings are represented
  by the integer value that JavaScript's new Date(...) parsing yields
  (milliseconds since the epoch); the JS comparison
  new Date(a) > new Date(b) is then integer >.
* JSON objects become structures; a field that may be absent (undefined)
  becomes an Option.  The JS truthiness test x || y on a string field is
  faithful to Option.getD because the code never stores "" in these fields.
* The gcf and policy branches of compareFiles (main.js:409-446) are
  textually identical up to the category name, so they are embedded once,
  parameterized by a Category.
* Network, disk and clock are oracles supplied as explicit parameters
  (HttpBody, DownloadEnv, SyncEnv): the pure logic applied to them is the
  code's.
* formatFileSize's (x).toFixed(1) is evaluated in exact arithmetic
  (round half up) rather than IEEE doubles; no claim depends on the
  rounding of a displayed size string.
-/

namespace NdaSync

/-- The two document categories, 'gcf' and 'policy' (main.js throughout). -/
inductive Category
  | gcf
  | policy
deriving DecidableEq, Repr

def categoryName : Category → String
  | .gcf => "gcf"
  | .policy => "policy"

/-- The values the code stores in a record's syncStatus field
(main.js:542, 660, 670). -/
inductive SyncStatus
  | success
  | failed
deriving DecidableEq, Repr

/-- One cached document entry (see the cache shape in SYNC_FEATURE.md and
main.js:534-543).  date is the parsed value of the stored "YYYY-MM-DD"
string; remoteModified is the parsed ISO timestamp, none when the field is
absent; syncStatus is none on records produced by the pure local scan
(main.js:303-310), which sets neither field. -/
structure DocumentRecord where
  id : String
  title : String
  description : String
  file : String
  size : String
  date : Int
  remoteModified : Option Int
  syncStatus : Option SyncStatus
deriving DecidableEq, Repr

/-- One entry of the remote manifest (SYNC_FEATURE.md manifest format);
modified is the parsed ISO timestamp. -/
structure ManifestEntry where
  name : String
  size : Nat
  modified : Int
deriving DecidableEq, Repr

/-- The manifest: { gcf: [...], policy: [...] } (main.js:365-371). -/
structure Manifest where
  gcf : List ManifestEntry
  policy : List ManifestEntry
deriving DecidableEq, Repr

/-- The persisted cache file: category arrays plus the optional lastSync
timestamp (main.js:677, SYNC_FEATURE.md cache structure). -/
structure Cache where
  gcf : List DocumentRecord
  policy : List DocumentRecord
  lastSync : Option Int
deriving DecidableEq, Repr

def cacheArr (c : Cache) : Category → List DocumentRecord
  | .gcf => c.gcf
  | .policy => c.policy

def setCacheArr (c : Cache) : Category → List DocumentRecord → Cache
  | .gcf, l => { c with gcf := l }
  | .policy, l => { c with policy := l }

/-- The fresh cache the handler starts from when no cache file exists or it
fails to parse (main.js:579, 584). -/
def emptyCache : Cache := { gcf := [], policy := [], lastSync := none }

/-- The reason tag attached to a download task (main.js:423, 443). -/
inductive Reason
  | new
  | retry
  | updated
deriving DecidableEq, Repr

def manifestEntries (m : Manifest) : Category → List ManifestEntry
  | .gcf => m.gcf
  | .policy => m.policy

/-- The relative path key, e.g. "gcf/testing.pdf" (main.js:410, 442). -/
def relPath (cat : Category) (name : String) : String :=
  categoryName cat ++ "/" ++ name

/-- The lookup performed through the Map built at main.js:405-406.
Map construction keeps the LAST binding for a duplicated key, hence the
search over the reversed list. -/
def lastFind? (l : List DocumentRecord) (p : String) : Option DocumentRecord :=
  l.reverse.find? (fun d => d.file == p)

def SERVER_BASE_URL : String := "http://192.168.1.9:8000"

/-- One download task of the plan (main.js:415-424).  The filesystem
destination localPath is omitted: it is appPath-relative plumbing with no
logic on it. -/
structure DownloadTask where
  category : Category
  name : String
  size : Nat
  modified : Int
  url : String
  relativePath : String
  reason : Reason
deriving DecidableEq, Repr

/-- The needsDownload condition of main.js:411-412:
!localFile || localFile.syncStatus === 'failed' ||
new Date(file.modified) > new Date(localFile.remoteModified || localFile.date). -/
def needsDownload (e : ManifestEntry) : Option DocumentRecord → Bool
  | none => true
  | some lf =>
      lf.syncStatus == some SyncStatus.failed
        || decide (e.modified > lf.remoteModified.getD lf.date)

/-- The reason expression of main.js:423:
!localFile ? 'new' : (localFile.syncStatus === 'failed' ? 'retry' : 'updated'). -/
def taskReason : Option DocumentRecord → Reason
  | none => .new
  | some lf => if lf.syncStatus == some SyncStatus.failed then .retry else .updated

/-- The task object pushed at main.js:415-424. -/
def mkTask (cat : Category) (e : ManifestEntry) (lf : Option DocumentRecord) : DownloadTask :=
  { category := cat
    name := e.name
    size := e.size
    modified := e.modified
    url := SERVER_BASE_URL ++ "/docs/" ++ categoryName cat ++ "/" ++ e.name
    relativePath := relPath cat e.name
    reason := taskReason lf }

/-- Processing of one manifest entry in the forEach of main.js:409-426. -/
def entryTask (cat : Category) (locals : List DocumentRecord) (e : ManifestEntry) :
    Option DownloadTask :=
  let lf := lastFind? locals (relPath cat e.name)
  if needsDownload e lf then some (mkTask cat e lf) else none

/-- The per-category half of compareFiles (main.js:409-426 for gcf,
main.js:429-446 for policy; identical modulo the category). -/
def planCategory (cat : Category) (entries : List ManifestEntry)
    (locals : List DocumentRecord) : List DownloadTask :=
  entries.filterMap (entryTask cat locals)

/-- compareFiles (main.js:399-449): gcf entries first, then policy entries,
appending to the same toDownload array. -/
def compareFiles (m : Manifest) (localCache : Cache) : List DownloadTask :=
  planCategory .gcf m.gcf localCache.gcf
    ++ planCategory .policy m.policy localCache.policy

/-- formatFileSize (main.js:382-386), with (x).toFixed(1) evaluated in
exact arithmetic: tenths is the byte count scaled to tenths of a KB (resp.
MB), rounded half up. -/
def formatFileSize (bytes : Nat) : String :=
  if bytes < 1024 then toString bytes ++ " B"
  else if bytes < 1024 * 1024 then
    let tenths := (bytes * 10 + 512) / 1024
    toString (tenths / 10) ++ "." ++ toString (tenths % 10) ++ " KB"
  else
    let tenths := (bytes * 10 + 512 * 1024) / (1024 * 1024)
    toString (tenths / 10) ++ "." ++ toString (tenths % 10) ++ " MB"

/-- Separator replacement of main.js:392: .replace(/[-_]/g, ' '). -/
def sepToSpace (c : Char) : Char :=
  if c = '-' ∨ c = '_' then ' ' else c

/-- Test for the /\.pdf$/i suffix (main.js:391). -/
def hasPdfSuffix (l : List Char) : Bool :=
  (l.reverse.take 4).map Char.toLower == ['f', 'd', 'p', '.']

/-- .replace(/\.pdf$/i, '') (main.js:391). -/
def stripPdfSuffix (l : List Char) : List Char :=
  if hasPdfSuffix l then l.take (l.length - 4) else l

/-- .split(' ') semantics of JS (main.js:393): splitting on every single
space, keeping empty segments; "" yields [""]. -/
def splitOnSpace : List Char → List (List Char)
  | [] => [[]]
  | c :: rest =>
    let r := splitOnSpace rest
    if c = ' ' then [] :: r
    else
      match r with
      | [] => [[c]]
      | w :: ws => (c :: w) :: ws

/-- word.charAt(0).toUpperCase() + word.slice(1).toLowerCase()
(main.js:394); on the empty word both parts are empty. -/
def titleCaseWord : List Char → List Char
  | [] => []
  | c :: rest => c.toUpper :: rest.map Char.toLower

/-- generateDisplayName (main.js:389-396). -/
def generateDisplayName (filename : String) : String :=
  let base := (stripPdfSuffix filename.data).map sepToSpace
  String.mk (List.intercalate [' '] ((splitOnSpace base).map titleCaseWord))

/-- Leading decimal digits of a character list. -/
def takeDigits : List Char → List Nat
  | [] => []
  | c :: rest =>
    if c.isDigit then (c.toNat - 48) :: takeDigits rest else []

def digitsToNat (ds : List Nat) : Nat :=
  ds.foldl (fun a d => a * 10 + d) 0

/-- Models parseInt(s, 10) on a content-length header value (main.js:466):
optional leading spaces and '+', then leading digits; none models NaN.
(A leading '-' would parse in JS; a negative content-length never occurs in
HTTP and is elided.) -/
def parseIntJS (s : String) : Option Nat :=
  let l := s.data.dropWhile (fun c => c = ' ')
  let l := match l with
    | '+' :: rest => rest
    | _ => l
  match takeDigits l with
  | [] => none
  | ds => some (digitsToNat ds)

/-- totalBytes at main.js:466: contentLength ? parseInt(contentLength, 10)
: null.  A missing header and the falsy empty-string header give null; a
NaN parse is also none (null and NaN behave alike in the truthiness guard
at main.js:481). -/
def totalBytesOf : Option String → Option Nat
  | none => none
  | some s => if s = "" then none else parseIntJS s

/-- JS truthiness of totalBytes (main.js:481): null/NaN and 0 are falsy. -/
def truthyNat : Option Nat → Bool
  | none => false
  | some n => n != 0

/-- Math.round((d / t) * 100) (main.js:482) in exact arithmetic
(round half up): floor((100 d / t) + 1/2) = (200 d + t) / (2 t). -/
def jsRound100 (d t : Nat) : Nat :=
  (200 * d + t) / (2 * t)

/-- The progress reporting inside the read loop of main.js:472-485:
after each chunk the cumulative byte count advances and, when totalBytes is
truthy, one onProgress(name, percent) call fires. -/
def progressEventsGo (name : String) (tb : Option Nat) :
    Nat → List Nat → List (String × Nat)
  | _, [] => []
  | downloaded, c :: rest =>
    let d := downloaded + c
    (if truthyNat tb then [(name, jsRound100 d (tb.getD 0))] else [])
      ++ progressEventsGo name tb d rest

def progressEvents (name : String) (tb : Option Nat) (chunks : List Nat) :
    List (String × Nat) :=
  progressEventsGo name tb 0 chunks

/-- Network behaviour offered to one downloadFile call: a transport
error / timeout / non-ok status (the throws at main.js:456-463, caught at
main.js:514), or an ok response with its content-length header and the
chunk sizes delivered by the body reader. -/
inductive HttpBody
  | failure (msg : String)
  | ok (contentLength : Option String) (chunks : List Nat)

/-- Disk and clock oracle for one downloadFile call: writeOk is the
fs.existsSync verification at main.js:500, mtimeDate the parsed value of
stats.mtime.toISOString().split('T')[0] at main.js:512. -/
structure DownloadEnv where
  response : HttpBody
  writeOk : Bool
  mtimeDate : Int

/-- The success payload of downloadFile (main.js:508-513); size is
stats.size of the written buffer, i.e. the total of the chunks. -/
structure DownloadSuccess where
  size : Nat
  displayName : String
  date : Int
deriving DecidableEq, Repr

/-- downloadFile (main.js:452-521): returns the onProgress call sequence
and either the success payload or the caught error message.  The
orchestrator always supplies an onProgress callback (main.js:635), so the
onProgress conjunct of the guard at main.js:481 is always true. -/
def downloadFile (name : String) (env : DownloadEnv) :
    List (String × Nat) × Except String DownloadSuccess :=
  match env.response with
  | .failure msg => ([], .error msg)
  | .ok cl chunks =>
    let events := progressEvents name (totalBytesOf cl) chunks
    if env.writeOk then
      (events, .ok ⟨chunks.sum, generateDisplayName name, env.mtimeDate⟩)
    else
      (events, .error "File was not written successfully")

/-- Replacement of the element at one index, leaving the rest alone
(categoryArray[i] = ... at main.js:546, .syncStatus = 'failed' at
main.js:660). -/
def modifyAt (f : DocumentRecord → DocumentRecord) :
    List DocumentRecord → Nat → List DocumentRecord
  | [], _ => []
  | x :: xs, 0 => f x :: xs
  | x :: xs, n + 1 => x :: modifyAt f xs n

/-- new Date(iso).toISOString().split('T')[0] re-parsed as a date
(main.js:668): truncation of the timestamp to midnight of its UTC day. -/
def jsDateOnly (t : Int) : Int :=
  86400000 * Int.fdiv t 86400000

/-- The docEntry object built at main.js:534-543 after a successful
download. -/
def docEntryFor (cat : Category) (t : DownloadTask) (r : DownloadSuccess) :
    DocumentRecord :=
  { id := categoryName cat ++ "-" ++ t.name
    title := r.displayName
    description := ""
    file := t.relativePath
    size := formatFileSize r.size
    date := r.date
    remoteModified := some t.modified
    syncStatus := some SyncStatus.success }

/-- The categoryArray manipulation of main.js:532-549: replace the first
record whose file equals the relative path p with entry, else append
entry. -/
def upsertList (entry : DocumentRecord) (p : String)
    (l : List DocumentRecord) : List DocumentRecord :=
  match l.findIdx? (fun d => d.file == p) with
  | some i => modifyAt (fun _ => entry) l i
  | none => l ++ [entry]

/-- updateCacheWithFile (main.js:524-552): replace the first record whose
file equals the task's relative path, else append.  The invalid-category
guard at main.js:526-529 is unreachable here because Category is an
enumeration of the two valid values. -/
def updateCacheWithFile (cache : Cache) (cat : Category) (t : DownloadTask)
    (r : DownloadSuccess) : Cache :=
  setCacheArr cache cat
    (upsertList (docEntryFor cat t r) t.relativePath (cacheArr cache cat))

/-- The placeholder record appended at main.js:662-671 when a download
fails and no record for that path exists yet. -/
def failedPlaceholder (t : DownloadTask) : DocumentRecord :=
  { id := categoryName t.category ++ "-" ++ t.name
    title := generateDisplayName t.name
    description := ""
    file := t.relativePath
    size := formatFileSize t.size
    date := jsDateOnly t.modified
    remoteModified := some t.modified
    syncStatus := some SyncStatus.failed }

/-- The categoryArray manipulation of main.js:657-672: mutate the first
matching record's syncStatus in place, else append the placeholder ph. -/
def markFailedList (ph : DocumentRecord) (p : String)
    (l : List DocumentRecord) : List DocumentRecord :=
  match l.findIdx? (fun d => d.file == p) with
  | some i => modifyAt (fun d => { d with syncStatus := some SyncStatus.failed }) l i
  | none => l ++ [ph]

/-- The failed-download bookkeeping of main.js:656-672 on the whole
cache. -/
def markTaskFailed (cache : Cache) (t : DownloadTask) : Cache :=
  setCacheArr cache t.category
    (markFailedList (failedPlaceholder t) t.relativePath (cacheArr cache t.category))

/-- The three webContents.send event kinds of the handler
(main.js:606-612, 638-641, 683-687). -/
inductive SyncEvent
  | status (stage : String) (total current : Nat) (file : String) (percent : Nat)
  | progress (file : String) (percent : Nat)
  | complete (downloaded failed total : Nat)
deriving DecidableEq, Repr

/-- The result object returned by the sync-remote-documents handler:
either the fetch-manifest failure of main.js:563-568 or the complete
result of main.js:592-599 / 693-702.  (The catch-all stage:'error' result
at main.js:713-718 is unreachable in this total model, which has no
thrown exceptions outside downloadFile's own catch.) -/
inductive SyncResult
  | fetchFailure (error message : String)
  | complete (message : String) (downloaded failed total : Nat)
deriving DecidableEq, Repr

def SyncResult.success : SyncResult → Bool
  | .fetchFailure _ _ => false
  | .complete _ _ _ _ => true

def SyncResult.stage : SyncResult → String
  | .fetchFailure _ _ => "fetch-manifest"
  | .complete _ _ _ _ => "complete"

def SyncResult.message : SyncResult → String
  | .fetchFailure _ msg => msg
  | .complete msg _ _ _ => msg

/-- The counts carried by the result; the fetch-failure result object has
none (undefined in JS). -/
def SyncResult.downloadedCount : SyncResult → Option Nat
  | .fetchFailure _ _ => none
  | .complete _ d _ _ => some d

def SyncResult.failedCount : SyncResult → Option Nat
  | .fetchFailure _ _ => none
  | .complete _ _ f _ => some f

def SyncResult.totalCount : SyncResult → Option Nat
  | .fetchFailure _ _ => none
  | .complete _ _ _ t => some t

/-- Outcome of the fetchManifest call (main.js:342-379): the caught error
message, or the validated manifest. -/
inductive FetchOutcome
  | failure (err : String)
  | ok (m : Manifest)

/-- Environment of one sync-remote-documents invocation: the manifest
fetch outcome, the cache file contents (none when missing or unparsable,
main.js:574-585), the per-task-index download environment, and the clock
value used for lastSync (main.js:677). -/
structure SyncEnv where
  fetch : FetchOutcome
  diskCache : Option Cache
  downloads : Nat → DownloadEnv
  now : Int

/-- What one handler invocation produces: the returned result, the cache
written to disk if the writeFile at main.js:678 ran (none otherwise, so
the file on disk is untouched), and the events sent to the renderer. -/
structure SyncOutcome where
  result : SyncResult
  written : Option Cache
  events : List SyncEvent
deriving DecidableEq, Repr

/-- The failed > 0 message of main.js:697. -/
def retryMessage (downloaded failed : Nat) : String :=
  "Synced " ++ toString downloaded ++ " files, " ++ toString failed
    ++ " failed. Click refresh to retry."

/-- The all-success message of main.js:698. -/
def successMessage (downloaded : Nat) : String :=
  "Successfully synced " ++ toString downloaded ++ " files"

/-- The download loop of main.js:619-674: per task a pre-download status
event (current is one-based), the forwarded per-chunk progress events,
then the cache update on success or the failed marking on failure.
Returns (final cache, downloaded, failed, events). -/
def runTasks (dl : Nat → DownloadEnv) (total : Nat) :
    List DownloadTask → Nat → Cache → Cache × Nat × Nat × List SyncEvent
  | [], _, cache => (cache, 0, 0, [])
  | t :: rest, i, cache =>
    let preEv := SyncEvent.status "downloading" total (i + 1) t.name 0
    let dres := downloadFile t.name (dl i)
    let progEvs := dres.1.map (fun p => SyncEvent.progress p.1 p.2)
    match dres.2 with
    | .ok r =>
      let out := runTasks dl total rest (i + 1) (updateCacheWithFile cache t.category t r)
      (out.1, out.2.1 + 1, out.2.2.1, preEv :: progEvs ++ out.2.2.2)
    | .error _ =>
      let out := runTasks dl total rest (i + 1) (markTaskFailed cache t)
      (out.1, out.2.1, out.2.2.1 + 1, preEv :: progEvs ++ out.2.2.2)

/-- The sync-remote-documents handler (main.js:555-720). -/
def syncRemoteDocuments (env : SyncEnv) : SyncOutcome :=
  match env.fetch with
  | .failure err =>
    { result := .fetchFailure err ("Failed to fetch manifest: " ++ err)
      written := none
      events := [] }
  | .ok m =>
    let localCache := env.diskCache.getD emptyCache
    let toDownload := compareFiles m localCache
    if toDownload.length = 0 then
      { result := .complete "All documents are up to date" 0 0 0
        written := none
        events := [] }
    else
      let initEv := SyncEvent.status "downloading" toDownload.length 0 "" 0
      let out := runTasks env.downloads toDownload.length toDownload 0 localCache
      let downloaded := out.2.1
      let failed := out.2.2.1
      let finalCache := { out.1 with lastSync := some env.now }
      let msg := if failed > 0 then retryMessage downloaded failed
                 else successMessage downloaded
      { result := .complete msg downloaded failed toDownload.length
        written := some finalCache
        events := initEv :: out.2.2.2
          ++ [SyncEvent.complete downloaded failed toDownload.length] }

/-- The renderer-side state the sync guard lives in (part_001:5 and the
cache file as the main process sees it). -/
structure RendererState where
  isSyncing : Bool
  disk : Option Cache
deriving DecidableEq, Repr

/-- Whether a sync request at the entry point was ignored or actually ran
the orchestrator. -/
inductive RequestOutcome
  | ignored
  | ran (o : SyncOutcome)
deriving DecidableEq, Repr

/-- syncWithServer (part_001:189-238): the isSyncing entry guard returns
immediately; otherwise the flag is set, the sync-remote-documents handler
runs, the disk cache reflects any write it performed, and the finally
block clears the flag. -/
def syncWithServer (s : RendererState) (fetch : FetchOutcome)
    (downloads : Nat → DownloadEnv) (now : Int) :
    RendererState × RequestOutcome :=
  if s.isSyncing then (s, .ignored)
  else
    let o := syncRemoteDocuments
      { fetch := fetch, diskCache := s.disk, downloads := downloads, now := now }
    ({ isSyncing := false
       disk := match o.written with
         | some c => some c
         | none => s.disk },
     .ran o)

/-- Lookup of the record for a relative path within a category, first
match first (the findIndex-based access pattern of main.js:532 and 657). -/
def findRecord (cache : Cache) (cat : Category) (p : String) : Option DocumentRecord :=
  (cacheArr cache cat).find? (fun d => d.file == p)

/-- Whether the download of the indexed task fails under the given
download environments. -/
def taskFails (dl : Nat → DownloadEnv) (jt : Nat × DownloadTask) : Bool :=
  match (downloadFile jt.2.name (dl jt.1)).2 with
  | .error _ => true
  | .ok _ => false

/-- Recognizes the per-task pre-download status event (one-based current
index, main.js:626-632); the initial event of main.js:606-612 has
current = 0 and is not counted. -/
def isTaskStatusEvent : SyncEvent → Bool
  | .status _ _ current _ _ => decide (1 ≤ current)
  | _ => false

/-- Cumulative byte counts after each chunk, starting from acc. -/
def cumSums (acc : Nat) : List Nat → List Nat
  | [] => []
  | c :: rest => (acc + c) :: cumSums (acc + c) rest

/-- A one-entry manifest (the testing.pdf example of SYNC_FEATURE.md),
used to instantiate theorems at concrete inputs. -/
def exManifest : Manifest :=
  { gcf := [{ name := "testing.pdf", size := 18810, modified := 1000 }]
    policy := [] }

/-- A cache already reflecting exManifest: the one listed file present
with syncStatus success and remoteModified equal to the manifest value. -/
def exReflectingCache : Cache :=
  { gcf := [{ id := "gcf-testing.pdf", title := "Testing", description := ""
              file := "gcf/testing.pdf", size := "18.4 KB", date := 500
              remoteModified := some 1000
              syncStatus := some SyncStatus.success }]
    policy := []
    lastSync := some 77 }

/-- Download environments in which every download fails in transport. -/
def exFailDownloads : Nat → DownloadEnv :=
  fun _ => { response := .failure "connect ECONNREFUSED", writeOk := true, mtimeDate := 0 }

/-- A concrete sync invocation: fresh cache, one new file, its download
failing. -/
def exEnvFreshFail : SyncEnv :=
  { fetch := .ok exManifest
    diskCache := some emptyCache
    downloads := exFailDownloads
    now := 99 }

/-- A concrete second-run sync invocation: unchanged manifest against the
cache already reflecting it. -/
def exEnvSecondRun : SyncEnv :=
  { fetch := .ok exManifest
    diskCache := some exReflectingCache
    downloads := exFailDownloads
    now := 123 }

/-- A concrete download task, used to instantiate theorems. -/
def exTask : DownloadTask :=
  { category := Category.gcf, name := "testing.pdf", size := 18810
    modified := 1000, url := "http://192.168.1.9:8000/docs/gcf/testing.pdf"
    relativePath := "gcf/testing.pdf", reason := Reason.new }

/-- exReflectingCache after a failed download of its one file. -/
def exFailedCache : Cache :=
  { gcf := [{ id := "gcf-testing.pdf", title := "Testing", description := ""
              file := "gcf/testing.pdf", size := "18.4 KB", date := 500
              remoteModified := some 1000
              syncStatus := some SyncStatus.failed }]
    policy := []
    lastSync := some 77 }

lemma cacheArr_setCacheArr_self (c : Cache) (cat : Category) (l : List DocumentRecord) :
    cacheArr (setCacheArr c cat l) cat = l := by
  cases cat <;> rfl

lemma cacheArr_setCacheArr_ne (c : Cache) (cat cat' : Category) (l : List DocumentRecord)
    (h : ¬ cat' = cat) : cacheArr (setCacheArr c cat l) cat' = cacheArr c cat' := by
  cases cat <;> cases cat' <;> first | rfl | exact absurd rfl h

lemma lastSync_setCacheArr (c : Cache) (cat : Category) (l : List DocumentRecord) :
    (setCacheArr c cat l).lastSync = c.lastSync := by
  cases cat <;> rfl

lemma cacheArr_withLastSync (c : Cache) (x : Option Int) (cat : Category) :
    cacheArr { c with lastSync := x } cat = cacheArr c cat := by
  cases cat <;> rfl

lemma upsertList_nil (entry : DocumentRecord) (p : String) :
    upsertList entry p [] = [entry] := rfl

lemma upsertList_cons (entry : DocumentRecord) (p : String) (a : DocumentRecord)
    (l : List DocumentRecord) :
    upsertList entry p (a :: l) =
      if a.file == p then entry :: l else a :: upsertList entry p l := by
  unfold upsertList
  rw [List.findIdx?_cons]
  by_cases h : (a.file == p) = true
  · simp [h, modifyAt]
  · rw [if_neg h, if_neg h]
    have hs := @List.findIdx?_succ _ l (fun d => d.file == p) 0
    rw [Nat.zero_add] at hs
    rw [hs]
    cases hf : List.findIdx? (fun d => d.file == p) l with
    | none => simp
    | some j => simp [modifyAt]

lemma markFailedList_nil (ph : DocumentRecord) (p : String) :
    markFailedList ph p [] = [ph] := rfl

lemma markFailedList_cons (ph : DocumentRecord) (p : String) (a : DocumentRecord)
    (l : List DocumentRecord) :
    markFailedList ph p (a :: l) =
      if a.file == p then { a with syncStatus := some SyncStatus.failed } :: l
      else a :: markFailedList ph p l := by
  unfold markFailedList
  rw [List.findIdx?_cons]
  by_cases h : (a.file == p) = true
  · simp [h, modifyAt]
  · rw [if_neg h, if_neg h]
    have hs := @List.findIdx?_succ _ l (fun d => d.file == p) 0
    rw [Nat.zero_add] at hs
    rw [hs]
    cases hf : List.findIdx? (fun d => d.file == p) l with
    | none => simp
    | some j => simp [modifyAt]


lemma find?_markFailedList_self (ph : DocumentRecord) (p : String)
    (hph : ph.file = p) (hphs : ph.syncStatus = some SyncStatus.failed) :
    ∀ l : List DocumentRecord,
      ∃ r, (markFailedList ph p l).find? (fun d => d.file == p) = some r
        ∧ r.syncStatus = some SyncStatus.failed := by
  intro l
  induction l with
  | nil =>
    refine ⟨ph, ?_, hphs⟩
    rw [markFailedList_nil]
    exact List.find?_cons_of_pos (p := fun (d : DocumentRecord) => d.file == p) _
      (by simp only [hph, beq_self_eq_true])
  | cons a l ih =>
    rw [markFailedList_cons]
    by_cases h : (a.file == p) = true
    · rw [if_pos h]
      exact ⟨_, List.find?_cons_of_pos (p := fun (d : DocumentRecord) => d.file == p) _ h, rfl⟩
    · rw [if_neg h]
      obtain ⟨r, hr, hrs⟩ := ih
      refine ⟨r, ?_, hrs⟩
      rw [List.find?_cons_of_neg (p := fun (d : DocumentRecord) => d.file == p) _ h]
      exact hr

lemma find?_markFailedList_ne (ph : DocumentRecord) (p q : String)
    (hph : ph.file = p) (hq : ¬ q = p) :
    ∀ l : List DocumentRecord,
      (markFailedList ph p l).find? (fun d => d.file == q)
        = l.find? (fun d => d.file == q) := by
  have hpq : ¬ ((p == q) = true) := by
    simp only [beq_iff_eq]
    exact fun hc => hq hc.symm
  intro l
  induction l with
  | nil =>
    rw [markFailedList_nil]
    rw [List.find?_cons_of_neg (p := fun (d : DocumentRecord) => d.file == q) _ (by simpa [hph] using hpq)]
  | cons a l ih =>
    rw [markFailedList_cons]
    by_cases h : (a.file == p) = true
    · rw [if_pos h]
      have ha : a.file = p := by simpa using h
      have hnq : ¬ (a.file == q) = true := by simpa [ha] using hpq
      rw [List.find?_cons_of_neg (p := fun (d : DocumentRecord) => d.file == q)
          (a := { a with syncStatus := some SyncStatus.failed }) _ hnq,
        List.find?_cons_of_neg (p := fun (d : DocumentRecord) => d.file == q) (a := a) _ hnq]
    · rw [if_neg h]
      by_cases h2 : (a.file == q) = true
      · rw [List.find?_cons_of_pos (p := fun (d : DocumentRecord) => d.file == q) _ h2,
          List.find?_cons_of_pos (p := fun (d : DocumentRecord) => d.file == q) _ h2]
      · rw [List.find?_cons_of_neg (p := fun (d : DocumentRecord) => d.file == q) _ h2,
          List.find?_cons_of_neg (p := fun (d : DocumentRecord) => d.file == q) _ h2, ih]

lemma find?_upsertList_ne (entry : DocumentRecord) (p q : String)
    (he : entry.file = p) (hq : ¬ q = p) :
    ∀ l : List DocumentRecord,
      (upsertList entry p l).find? (fun d => d.file == q)
        = l.find? (fun d => d.file == q) := by
  have hpq : ¬ ((p == q) = true) := by
    simp only [beq_iff_eq]
    exact fun hc => hq hc.symm
  intro l
  induction l with
  | nil =>
    rw [upsertList_nil]
    rw [List.find?_cons_of_neg (p := fun (d : DocumentRecord) => d.file == q) _ (by simpa [he] using hpq)]
  | cons a l ih =>
    rw [upsertList_cons]
    by_cases h : (a.file == p) = true
    · rw [if_pos h]
      have ha : a.file = p := by simpa using h
      have hne : ¬ (entry.file == q) = true := by simpa [he] using hpq
      have hna : ¬ (a.file == q) = true := by simpa [ha] using hpq
      rw [List.find?_cons_of_neg (p := fun (d : DocumentRecord) => d.file == q) (a := entry) _ hne,
        List.find?_cons_of_neg (p := fun (d : DocumentRecord) => d.file == q) (a := a) _ hna]
    · rw [if_neg h]
      by_cases h2 : (a.file == q) = true
      · rw [List.find?_cons_of_pos (p := fun (d : DocumentRecord) => d.file == q) _ h2,
          List.find?_cons_of_pos (p := fun (d : DocumentRecord) => d.file == q) _ h2]
      · rw [List.find?_cons_of_neg (p := fun (d : DocumentRecord) => d.file == q) _ h2,
          List.find?_cons_of_neg (p := fun (d : DocumentRecord) => d.file == q) _ h2, ih]

lemma findRecord_markTaskFailed_self (cache : Cache) (t : DownloadTask) :
    ∃ r, findRecord (markTaskFailed cache t) t.category t.relativePath = some r
      ∧ r.syncStatus = some SyncStatus.failed := by
  unfold findRecord markTaskFailed
  rw [cacheArr_setCacheArr_self]
  exact find?_markFailedList_self (failedPlaceholder t) t.relativePath rfl rfl _

lemma findRecord_markTaskFailed_frame (cache : Cache) (t : DownloadTask)
    (cat : Category) (p : String)
    (h : ¬ (cat = t.category ∧ p = t.relativePath)) :
    findRecord (markTaskFailed cache t) cat p = findRecord cache cat p := by
  unfold findRecord markTaskFailed
  by_cases hc : cat = t.category
  · subst hc
    rw [cacheArr_setCacheArr_self]
    exact find?_markFailedList_ne _ _ _ rfl (fun hp => h ⟨rfl, hp⟩) _
  · rw [cacheArr_setCacheArr_ne _ _ _ _ hc]

lemma findRecord_updateCache_frame (cache : Cache) (cat' : Category)
    (t : DownloadTask) (r : DownloadSuccess) (cat : Category) (p : String)
    (h : ¬ (cat = cat' ∧ p = t.relativePath)) :
    findRecord (updateCacheWithFile cache cat' t r) cat p = findRecord cache cat p := by
  unfold findRecord updateCacheWithFile
  by_cases hc : cat = cat'
  · subst hc
    rw [cacheArr_setCacheArr_self]
    exact find?_upsertList_ne _ _ _ rfl (fun hp => h ⟨rfl, hp⟩) _
  · rw [cacheArr_setCacheArr_ne _ _ _ _ hc]


lemma progressEventsGo_not_truthy (name : String) (tb : Option Nat)
    (h : truthyNat tb = false) :
    ∀ (chunks : List Nat) (acc : Nat), progressEventsGo name tb acc chunks = [] := by
  intro chunks
  induction chunks with
  | nil => intro acc; rfl
  | cons c rest ih => intro acc; simp [progressEventsGo, h, ih]

lemma progressEventsGo_truthy (name : String) (t : Nat) (ht : ¬ t = 0) :
    ∀ (chunks : List Nat) (acc : Nat),
      progressEventsGo name (some t) acc chunks
        = (cumSums acc chunks).map (fun d => (name, jsRound100 d t)) := by
  intro chunks
  induction chunks with
  | nil => intro acc; rfl
  | cons c rest ih =>
    intro acc
    have htr : truthyNat (some t) = true := by simp [truthyNat, ht]
    simp [progressEventsGo, cumSums, htr, ih]

lemma mem_cumSums_le : ∀ (chunks : List Nat) (acc x : Nat),
    x ∈ cumSums acc chunks → x ≤ acc + chunks.sum := by
  intro chunks
  induction chunks with
  | nil => intro acc x hx; simp [cumSums] at hx
  | cons c rest ih =>
    intro acc x hx
    simp only [cumSums, List.mem_cons] at hx
    rcases hx with h | h
    · subst h
      simp only [List.sum_cons]
      omega
    · have := ih (acc + c) x h
      simp only [List.sum_cons]
      omega

lemma cumSums_length : ∀ (chunks : List Nat) (acc : Nat),
    (cumSums acc chunks).length = chunks.length := by
  intro chunks
  induction chunks with
  | nil => intro acc; rfl
  | cons c rest ih => intro acc; simp [cumSums, ih]

lemma jsRound100_le_100 (d t : Nat) (ht : 0 < t) (hd : d ≤ t) :
    jsRound100 d t ≤ 100 := by
  unfold jsRound100
  have h2 : 200 * d + t < 101 * (2 * t) := by omega
  have h3 : (200 * d + t) / (2 * t) < 101 :=
    (Nat.div_lt_iff_lt_mul (by omega)).mpr h2
  omega

lemma retryMessage_ne_successMessage (d f d' : Nat) :
    ¬ retryMessage d f = successMessage d' := by
  intro h
  have h2 : (retryMessage d f).data = (successMessage d').data := congrArg String.data h
  have e1 : (retryMessage d f).data
      = 'S' :: 'y' :: ("nced " ++ toString d ++ " files, " ++ toString f
          ++ " failed. Click refresh to retry.").data := rfl
  have e2 : (successMessage d').data
      = 'S' :: 'u' :: ("ccessfully synced " ++ toString d' ++ " files").data := rfl
  rw [e1, e2] at h2
  simp at h2

lemma lastFind?_eq_of_nodup (l : List DocumentRecord)
    (hnd : (l.map (fun d => d.file)).Nodup) (r : DocumentRecord) (hr : r ∈ l) :
    lastFind? l r.file = some r := by
  unfold lastFind?
  have hsome : (l.reverse.find? (fun d => d.file == r.file)).isSome := by
    rw [List.find?_isSome]
    exact ⟨r, List.mem_reverse.mpr hr, by simp⟩
  obtain ⟨d, hd⟩ := Option.isSome_iff_exists.mp hsome
  rw [hd]
  have hdm : d ∈ l := List.mem_reverse.mp (List.mem_of_find?_eq_some hd)
  have hdf : d.file = r.file := by simpa using List.find?_some hd
  rw [List.inj_on_of_nodup_map hnd hdm hr hdf]

lemma mem_planCategory_elim {cat : Category} {entries : List ManifestEntry}
    {locals : List DocumentRecord} {t : DownloadTask}
    (h : t ∈ planCategory cat entries locals) :
    ∃ e ∈ entries,
      needsDownload e (lastFind? locals (relPath cat e.name)) = true
        ∧ t = mkTask cat e (lastFind? locals (relPath cat e.name)) := by
  obtain ⟨e, he, het⟩ := List.mem_filterMap.mp h
  unfold entryTask at het
  by_cases hn : needsDownload e (lastFind? locals (relPath cat e.name)) = true
  · refine ⟨e, he, hn, ?_⟩
    simp only [hn, if_pos] at het
    exact (Option.some.inj het).symm
  · rw [if_neg hn] at het
    exact Option.noConfusion het

lemma mem_planCategory_intro {cat : Category} {entries : List ManifestEntry}
    {locals : List DocumentRecord} {e : ManifestEntry} (he : e ∈ entries)
    (hn : needsDownload e (lastFind? locals (relPath cat e.name)) = true) :
    mkTask cat e (lastFind? locals (relPath cat e.name)) ∈ planCategory cat entries locals := by
  apply List.mem_filterMap.mpr
  refine ⟨e, he, ?_⟩
  unfold entryTask
  simp only [hn, if_pos]

lemma planCategory_category {cat : Category} {entries : List ManifestEntry}
    {locals : List DocumentRecord} {t : DownloadTask}
    (h : t ∈ planCategory cat entries locals) : t.category = cat := by
  obtain ⟨e, _, _, ht⟩ := mem_planCategory_elim h
  rw [ht]
  rfl

lemma mem_compareFiles_of_planCategory {m : Manifest} {c : Cache} {cat : Category}
    {t : DownloadTask}
    (h : t ∈ planCategory cat (manifestEntries m cat) (cacheArr c cat)) :
    t ∈ compareFiles m c := by
  cases cat
  · exact List.mem_append.mpr (Or.inl h)
  · exact List.mem_append.mpr (Or.inr h)

lemma mem_compareFiles_cases {m : Manifest} {c : Cache} {t : DownloadTask}
    (h : t ∈ compareFiles m c) :
    ∃ cat, t ∈ planCategory cat (manifestEntries m cat) (cacheArr c cat) := by
  rcases List.mem_append.mp h with h | h
  · exact ⟨.gcf, h⟩
  · exact ⟨.policy, h⟩


lemma runTasks_nil (dl : Nat → DownloadEnv) (total i : Nat) (cache : Cache) :
    runTasks dl total [] i cache = (cache, 0, 0, []) := rfl

lemma runTasks_cons_error (dl : Nat → DownloadEnv) (total : Nat) (t : DownloadTask)
    (rest : List DownloadTask) (i : Nat) (cache : Cache) (msg : String)
    (hd : (downloadFile t.name (dl i)).2 = .error msg) :
    runTasks dl total (t :: rest) i cache
      = ((runTasks dl total rest (i + 1) (markTaskFailed cache t)).1,
         (runTasks dl total rest (i + 1) (markTaskFailed cache t)).2.1,
         (runTasks dl total rest (i + 1) (markTaskFailed cache t)).2.2.1 + 1,
         SyncEvent.status "downloading" total (i + 1) t.name 0
           :: (downloadFile t.name (dl i)).1.map (fun p => SyncEvent.progress p.1 p.2)
           ++ (runTasks dl total rest (i + 1) (markTaskFailed cache t)).2.2.2) := by
  simp only [runTasks]
  rw [hd]

lemma runTasks_cons_ok (dl : Nat → DownloadEnv) (total : Nat) (t : DownloadTask)
    (rest : List DownloadTask) (i : Nat) (cache : Cache) (r : DownloadSuccess)
    (hd : (downloadFile t.name (dl i)).2 = .ok r) :
    runTasks dl total (t :: rest) i cache
      = ((runTasks dl total rest (i + 1) (updateCacheWithFile cache t.category t r)).1,
         (runTasks dl total rest (i + 1) (updateCacheWithFile cache t.category t r)).2.1 + 1,
         (runTasks dl total rest (i + 1) (updateCacheWithFile cache t.category t r)).2.2.1,
         SyncEvent.status "downloading" total (i + 1) t.name 0
           :: (downloadFile t.name (dl i)).1.map (fun p => SyncEvent.progress p.1 p.2)
           ++ (runTasks dl total rest (i + 1) (updateCacheWithFile cache t.category t r)).2.2.2) := by
  simp only [runTasks]
  rw [hd]

lemma taskFails_of_error (dl : Nat → DownloadEnv) (i : Nat) (t : DownloadTask)
    (msg : String) (hd : (downloadFile t.name (dl i)).2 = .error msg) :
    taskFails dl (i, t) = true := by
  simp [taskFails, hd]

lemma taskFails_of_ok (dl : Nat → DownloadEnv) (i : Nat) (t : DownloadTask)
    (r : DownloadSuccess) (hd : (downloadFile t.name (dl i)).2 = .ok r) :
    taskFails dl (i, t) = false := by
  simp [taskFails, hd]

lemma runTasks_counts (dl : Nat → DownloadEnv) (total : Nat) :
    ∀ (rest : List DownloadTask) (i : Nat) (cache : Cache),
      (runTasks dl total rest i cache).2.1 + (runTasks dl total rest i cache).2.2.1
          = rest.length
        ∧ (runTasks dl total rest i cache).2.2.1
          = ((List.enumFrom i rest).filter (taskFails dl)).length := by
  intro rest
  induction rest with
  | nil => intro i cache; simp [runTasks_nil]
  | cons t rest ih =>
    intro i cache
    have hef : List.enumFrom i (t :: rest) = (i, t) :: List.enumFrom (i + 1) rest := rfl
    cases hd : (downloadFile t.name (dl i)).2 with
    | error msg =>
      rw [runTasks_cons_error dl total t rest i cache msg hd]
      dsimp only
      obtain ⟨ih1, ih2⟩ := ih (i + 1) (markTaskFailed cache t)
      constructor
      · simp only [List.length_cons]
        omega
      · rw [hef, List.filter_cons_of_pos (taskFails_of_error dl i t msg hd)]
        simp only [List.length_cons]
        omega
    | ok r =>
      rw [runTasks_cons_ok dl total t rest i cache r hd]
      dsimp only
      obtain ⟨ih1, ih2⟩ := ih (i + 1) (updateCacheWithFile cache t.category t r)
      constructor
      · simp only [List.length_cons]
        omega
      · rw [hef, List.filter_cons_of_neg (by rw [taskFails_of_ok dl i t r hd]; simp)]
        omega

lemma runTasks_statusCount (dl : Nat → DownloadEnv) (total : Nat) :
    ∀ (rest : List DownloadTask) (i : Nat) (cache : Cache),
      ((runTasks dl total rest i cache).2.2.2).countP isTaskStatusEvent = rest.length := by
  intro rest
  induction rest with
  | nil => intro i cache; simp [runTasks_nil]
  | cons t rest ih =>
    intro i cache
    have hprog : ∀ evs : List (String × Nat),
        (evs.map (fun p => SyncEvent.progress p.1 p.2)).countP isTaskStatusEvent = 0 := by
      intro evs
      rw [List.countP_eq_zero]
      intro ev hev
      obtain ⟨p, _, hp⟩ := List.mem_map.mp hev
      rw [← hp]
      simp [isTaskStatusEvent]
    have hpre : isTaskStatusEvent (SyncEvent.status "downloading" total (i + 1) t.name 0) = true := by
      simp [isTaskStatusEvent]
    cases hd : (downloadFile t.name (dl i)).2 with
    | error msg =>
      rw [runTasks_cons_error dl total t rest i cache msg hd]
      dsimp only
      simp only [List.countP_cons, List.countP_append, hprog, hpre, if_pos,
        ih (i + 1) (markTaskFailed cache t), List.length_cons]
      omega
    | ok r =>
      rw [runTasks_cons_ok dl total t rest i cache r hd]
      dsimp only
      simp only [List.countP_cons, List.countP_append, hprog, hpre, if_pos,
        ih (i + 1) (updateCacheWithFile cache t.category t r), List.length_cons]
      omega

lemma runTasks_findRecord_frame (dl : Nat → DownloadEnv) (total : Nat) :
    ∀ (rest : List DownloadTask) (i : Nat) (cache : Cache) (cat : Category) (p : String),
      (∀ t ∈ rest, ¬ (cat = t.category ∧ p = t.relativePath)) →
      findRecord (runTasks dl total rest i cache).1 cat p = findRecord cache cat p := by
  intro rest
  induction rest with
  | nil => intro i cache cat p _; rfl
  | cons t rest ih =>
    intro i cache cat p hne
    have hht := hne t (List.mem_cons_self t rest)
    have htl : ∀ u ∈ rest, ¬ (cat = u.category ∧ p = u.relativePath) :=
      fun u hu => hne u (List.mem_cons_of_mem t hu)
    cases hd : (downloadFile t.name (dl i)).2 with
    | error msg =>
      rw [runTasks_cons_error dl total t rest i cache msg hd]
      dsimp only
      rw [ih (i + 1) (markTaskFailed cache t) cat p htl]
      exact findRecord_markTaskFailed_frame cache t cat p hht
    | ok r =>
      rw [runTasks_cons_ok dl total t rest i cache r hd]
      dsimp only
      rw [ih (i + 1) (updateCacheWithFile cache t.category t r) cat p htl]
      exact findRecord_updateCache_frame cache t.category t r cat p hht

lemma runTasks_failed_recorded (dl : Nat → DownloadEnv) (total : Nat) :
    ∀ (rest : List DownloadTask) (i : Nat) (cache : Cache),
      (rest.map (fun t => (t.category, t.relativePath))).Nodup →
      ∀ jt ∈ List.enumFrom i rest, taskFails dl jt = true →
      ∃ r, findRecord (runTasks dl total rest i cache).1 jt.2.category jt.2.relativePath
          = some r ∧ r.syncStatus = some SyncStatus.failed := by
  intro rest
  induction rest with
  | nil => intro i cache _ jt hjt; simp [List.enumFrom] at hjt
  | cons t rest ih =>
    intro i cache hnd jt hjt hfail
    have hef : List.enumFrom i (t :: rest) = (i, t) :: List.enumFrom (i + 1) rest := rfl
    rw [hef, List.mem_cons] at hjt
    have hndt : (t.category, t.relativePath)
        ∉ rest.map (fun u => (u.category, u.relativePath)) := by
      have := hnd
      rw [List.map_cons, List.nodup_cons] at this
      exact this.1
    have hndr : (rest.map (fun u => (u.category, u.relativePath))).Nodup := by
      have := hnd
      rw [List.map_cons, List.nodup_cons] at this
      exact this.2
    rcases hjt with hjt | hjt
    · subst hjt
      cases hd : (downloadFile t.name (dl i)).2 with
      | ok r =>
        rw [taskFails_of_ok dl i t r hd] at hfail
        exact Bool.noConfusion hfail
      | error msg =>
        rw [runTasks_cons_error dl total t rest i cache msg hd]
        dsimp only
        have hfr : ∀ u ∈ rest, ¬ (t.category = u.category ∧ t.relativePath = u.relativePath) := by
          intro u hu hc
          apply hndt
          apply List.mem_map.mpr
          exact ⟨u, hu, by rw [← hc.1, ← hc.2]⟩
        rw [runTasks_findRecord_frame dl total rest (i + 1) (markTaskFailed cache t)
          t.category t.relativePath hfr]
        exact findRecord_markTaskFailed_self cache t
    · cases hd : (downloadFile t.name (dl i)).2 with
      | error msg =>
        rw [runTasks_cons_error dl total t rest i cache msg hd]
        dsimp only
        exact ih (i + 1) (markTaskFailed cache t) hndr jt hjt hfail
      | ok r =>
        rw [runTasks_cons_ok dl total t rest i cache r hd]
        dsimp only
        exact ih (i + 1) (updateCacheWithFile cache t.category t r) hndr jt hjt hfail


lemma modifyAt_length (f : DocumentRecord → DocumentRecord) :
    ∀ (l : List DocumentRecord) (i : Nat), (modifyAt f l i).length = l.length := by
  intro l
  induction l with
  | nil => intro i; rfl
  | cons a l ih =>
    intro i
    cases i with
    | zero => rfl
    | succ n => simp only [modifyAt, List.length_cons, ih]

lemma get_modifyAt_self (f : DocumentRecord → DocumentRecord) :
    ∀ (l : List DocumentRecord) (i : Nat) (hi : i < l.length)
      (hi' : i < (modifyAt f l i).length),
      (modifyAt f l i).get ⟨i, hi'⟩ = f (l.get ⟨i, hi⟩) := by
  intro l
  induction l with
  | nil => intro i hi hi'; exact absurd hi (by simp)
  | cons a l ih =>
    intro i hi hi'
    cases i with
    | zero => rfl
    | succ n =>
      exact ih n (Nat.lt_of_succ_lt_succ hi)
        (Nat.lt_of_succ_lt_succ (by simpa [modifyAt] using hi'))

lemma get_modifyAt_ne (f : DocumentRecord → DocumentRecord) :
    ∀ (l : List DocumentRecord) (i j : Nat) (hj : j < l.length)
      (hj' : j < (modifyAt f l i).length), ¬ j = i →
      (modifyAt f l i).get ⟨j, hj'⟩ = l.get ⟨j, hj⟩ := by
  intro l
  induction l with
  | nil => intro i j hj hj' _; exact absurd hj (by simp)
  | cons a l ih =>
    intro i j hj hj' hne
    cases i with
    | zero =>
      cases j with
      | zero => exact absurd rfl hne
      | succ n => rfl
    | succ m =>
      cases j with
      | zero => rfl
      | succ n =>
        exact ih m n (Nat.lt_of_succ_lt_succ hj)
          (Nat.lt_of_succ_lt_succ (by simpa [modifyAt] using hj'))
          (fun hc => hne (by rw [hc]))


/-- C4: when the manifest fetch fails, the sync returns a failure result
whose stage is 'fetch-manifest' with the embedded error message, no
download is attempted (no events are emitted), and the cache file on disk
is not written (the returned written component is none). -/
theorem sync_fetch_failure_no_mutation (env : SyncEnv) (err : String)
    (h : env.fetch = FetchOutcome.failure err) :
    syncRemoteDocuments env
        = { result := SyncResult.fetchFailure err ("Failed to fetch manifest: " ++ err)
            written := none
            events := [] }
      ∧ (syncRemoteDocuments env).result.success = false
      ∧ (syncRemoteDocuments env).result.stage = "fetch-manifest" := by
  unfold syncRemoteDocuments
  rw [h]
  exact ⟨rfl, rfl, rfl⟩

/-- Witness for C4 at a concrete environment. -/
theorem sync_fetch_failure_no_mutation_witness :
    syncRemoteDocuments
        { fetch := FetchOutcome.failure "Server returned 503: Service Unavailable"
          diskCache := some exReflectingCache
          downloads := exFailDownloads
          now := 5 }
        = { result := SyncResult.fetchFailure "Server returned 503: Service Unavailable"
              ("Failed to fetch manifest: " ++ "Server returned 503: Service Unavailable")
            written := none
            events := [] }
      ∧ (syncRemoteDocuments
          { fetch := FetchOutcome.failure "Server returned 503: Service Unavailable"
            diskCache := some exReflectingCache
            downloads := exFailDownloads
            now := 5 }).result.success = false
      ∧ (syncRemoteDocuments
          { fetch := FetchOutcome.failure "Server returned 503: Service Unavailable"
            diskCache := some exReflectingCache
            downloads := exFailDownloads
            now := 5 }).result.stage = "fetch-manifest" :=
  sync_fetch_failure_no_mutation _ "Server returned 503: Service Unavailable" rfl

/-- C9: while a sync is in progress (isSyncing set), a new sync request at
the entry point is ignored: no orchestrator run, no state change at all. -/
theorem sync_entry_guard (s : RendererState) (fetch : FetchOutcome)
    (downloads : Nat → DownloadEnv) (now : Int) (h : s.isSyncing = true) :
    syncWithServer s fetch downloads now = (s, RequestOutcome.ignored) := by
  unfold syncWithServer
  rw [if_pos h]

/-- Witness for C9 at a concrete state. -/
theorem sync_entry_guard_witness :
    syncWithServer { isSyncing := true, disk := some exReflectingCache }
        (FetchOutcome.ok exManifest) exFailDownloads 42
      = ({ isSyncing := true, disk := some exReflectingCache }, RequestOutcome.ignored) :=
  sync_entry_guard _ (FetchOutcome.ok exManifest) exFailDownloads 42 rfl

/-- C10: when the content-length header is absent or is the string "0",
totalBytes is falsy, no progress callback fires, and the download loop and
file write still complete normally with the full buffer. -/
theorem download_no_total_guard (cl : Option String)
    (h : cl = none ∨ cl = some "0") (name : String) (chunks : List Nat) (mt : Int) :
    downloadFile name { response := HttpBody.ok cl chunks, writeOk := true, mtimeDate := mt }
      = ([], Except.ok { size := chunks.sum
                         displayName := generateDisplayName name
                         date := mt }) := by
  have htb : truthyNat (totalBytesOf cl) = false := by
    rcases h with h | h <;> rw [h] <;> rfl
  unfold downloadFile
  dsimp only
  rw [show progressEvents name (totalBytesOf cl) chunks = []
    from progressEventsGo_not_truthy name _ htb chunks 0]
  rw [if_pos rfl]

/-- Witness for C10 at a concrete download. -/
theorem download_no_total_guard_witness :
    ((some "0" : Option String) = none ∨ (some "0" : Option String) = some "0")
    ∧ downloadFile "a.pdf"
        { response := HttpBody.ok (some "0") [3, 4], writeOk := true, mtimeDate := 7 }
        = ([], Except.ok { size := [3, 4].sum
                           displayName := generateDisplayName "a.pdf"
                           date := 7 }) :=
  ⟨Or.inr rfl, download_no_total_guard (some "0") (Or.inr rfl) "a.pdf" [3, 4] 7⟩

/-- C2: a cached record with syncStatus 'failed' whose relative path the
manifest still lists yields a task in the plan with reason 'retry',
regardless of timestamps. -/
theorem failed_always_retried (m : Manifest) (c : Cache) (cat : Category)
    (rec : DocumentRecord) (e : ManifestEntry)
    (hu : ((cacheArr c cat).map (fun d => d.file)).Nodup)
    (hrec : rec ∈ cacheArr c cat)
    (hst : rec.syncStatus = some SyncStatus.failed)
    (he : e ∈ manifestEntries m cat)
    (hpath : relPath cat e.name = rec.file) :
    ∃ t ∈ compareFiles m c, t.relativePath = rec.file ∧ t.reason = Reason.retry := by
  have hlf : lastFind? (cacheArr c cat) (relPath cat e.name) = some rec := by
    rw [hpath]
    exact lastFind?_eq_of_nodup _ hu rec hrec
  have hneeds : needsDownload e (lastFind? (cacheArr c cat) (relPath cat e.name)) = true := by
    rw [hlf]
    simp [needsDownload, hst]
  refine ⟨mkTask cat e (lastFind? (cacheArr c cat) (relPath cat e.name)),
    mem_compareFiles_of_planCategory (mem_planCategory_intro he hneeds), hpath, ?_⟩
  show taskReason (lastFind? (cacheArr c cat) (relPath cat e.name)) = Reason.retry
  rw [hlf]
  simp [taskReason, hst]

/-- Witness for C2 at a concrete cache and manifest. -/
theorem failed_always_retried_witness :
    ∃ t ∈ compareFiles exManifest exFailedCache,
      t.relativePath = "gcf/testing.pdf" ∧ t.reason = Reason.retry :=
  failed_always_retried exManifest exFailedCache Category.gcf
    { id := "gcf-testing.pdf", title := "Testing", description := ""
      file := "gcf/testing.pdf", size := "18.4 KB", date := 500
      remoteModified := some 1000, syncStatus := some SyncStatus.failed }
    { name := "testing.pdf", size := 18810, modified := 1000 }
    (by decide) (by decide) rfl (by decide) rfl


/-- C8: when a download fails for a task whose relative path already has a
record in the category array, the failure bookkeeping changes only that
record's syncStatus (set to 'failed'); all its other fields, all other
records, the other category and lastSync are untouched, and no record is
added or removed. -/
theorem markTaskFailed_frame (cache : Cache) (t : DownloadTask)
    (h : ∃ r ∈ cacheArr cache t.category, r.file = t.relativePath) :
    ∃ i, ∃ hi : i < (cacheArr cache t.category).length,
      ((cacheArr cache t.category).get ⟨i, hi⟩).file = t.relativePath
      ∧ (cacheArr (markTaskFailed cache t) t.category).length
          = (cacheArr cache t.category).length
      ∧ (∃ hi' : i < (cacheArr (markTaskFailed cache t) t.category).length,
          (cacheArr (markTaskFailed cache t) t.category).get ⟨i, hi'⟩
            = { (cacheArr cache t.category).get ⟨i, hi⟩ with
                syncStatus := some SyncStatus.failed })
      ∧ (∀ j, ∀ hj : j < (cacheArr cache t.category).length, ¬ j = i →
          ∃ hj' : j < (cacheArr (markTaskFailed cache t) t.category).length,
            (cacheArr (markTaskFailed cache t) t.category).get ⟨j, hj'⟩
              = (cacheArr cache t.category).get ⟨j, hj⟩)
      ∧ (∀ cat, ¬ cat = t.category →
          cacheArr (markTaskFailed cache t) cat = cacheArr cache cat)
      ∧ (markTaskFailed cache t).lastSync = cache.lastSync := by
  obtain ⟨r, hr, hrf⟩ := h
  have hex : ∃ x ∈ cacheArr cache t.category, (x.file == t.relativePath) = true :=
    ⟨r, hr, by simp [hrf]⟩
  have hlt := List.findIdx_lt_length_of_exists hex
  have hfi : (cacheArr cache t.category).findIdx? (fun d => d.file == t.relativePath)
      = some ((cacheArr cache t.category).findIdx (fun d => d.file == t.relativePath)) :=
    List.findIdx?_eq_some_iff_findIdx_eq.mpr ⟨hlt, rfl⟩
  have hmark : cacheArr (markTaskFailed cache t) t.category
      = modifyAt (fun d => { d with syncStatus := some SyncStatus.failed })
          (cacheArr cache t.category)
          ((cacheArr cache t.category).findIdx (fun d => d.file == t.relativePath)) := by
    unfold markTaskFailed
    rw [cacheArr_setCacheArr_self]
    unfold markFailedList
    rw [hfi]
  refine ⟨(cacheArr cache t.category).findIdx (fun d => d.file == t.relativePath),
    hlt, ?_, ?_, ?_, ?_, ?_, ?_⟩
  · have := @List.findIdx_getElem _ (fun d => d.file == t.relativePath)
      (cacheArr cache t.category) hlt
    simpa [List.get_eq_getElem] using this
  · rw [hmark, modifyAt_length]
  · have hi' : (cacheArr cache t.category).findIdx (fun d => d.file == t.relativePath)
        < (cacheArr (markTaskFailed cache t) t.category).length := by
      rw [hmark, modifyAt_length]
      exact hlt
    refine ⟨hi', ?_⟩
    rw [List.get_of_eq hmark ⟨_, hi'⟩]
    exact get_modifyAt_self _ _ _ hlt _
  · intro j hj hne
    have hj' : j < (cacheArr (markTaskFailed cache t) t.category).length := by
      rw [hmark, modifyAt_length]
      exact hj
    refine ⟨hj', ?_⟩
    rw [List.get_of_eq hmark ⟨j, hj'⟩]
    exact get_modifyAt_ne _ _ _ _ hj _ hne
  · intro cat hcat
    unfold markTaskFailed
    rw [cacheArr_setCacheArr_ne _ _ _ _ hcat]
  · unfold markTaskFailed
    rw [lastSync_setCacheArr]

/-- Witness for C8 at a concrete cache and task. -/
theorem markTaskFailed_frame_witness :
    (∃ r ∈ cacheArr exFailedCache exTask.category, r.file = exTask.relativePath)
    ∧ (∃ i, ∃ hi : i < (cacheArr exFailedCache exTask.category).length,
        ((cacheArr exFailedCache exTask.category).get ⟨i, hi⟩).file = exTask.relativePath
        ∧ (cacheArr (markTaskFailed exFailedCache exTask) exTask.category).length
            = (cacheArr exFailedCache exTask.category).length
        ∧ (∃ hi' : i < (cacheArr (markTaskFailed exFailedCache exTask) exTask.category).length,
            (cacheArr (markTaskFailed exFailedCache exTask) exTask.category).get ⟨i, hi'⟩
              = { (cacheArr exFailedCache exTask.category).get ⟨i, hi⟩ with
                  syncStatus := some SyncStatus.failed })
        ∧ (∀ j, ∀ hj : j < (cacheArr exFailedCache exTask.category).length, ¬ j = i →
            ∃ hj' : j < (cacheArr (markTaskFailed exFailedCache exTask) exTask.category).length,
              (cacheArr (markTaskFailed exFailedCache exTask) exTask.category).get ⟨j, hj'⟩
                = (cacheArr exFailedCache exTask.category).get ⟨j, hj⟩)
        ∧ (∀ cat, ¬ cat = exTask.category →
            cacheArr (markTaskFailed exFailedCache exTask) cat = cacheArr exFailedCache cat)
        ∧ (markTaskFailed exFailedCache exTask).lastSync = exFailedCache.lastSync) :=
  ⟨⟨{ id := "gcf-testing.pdf", title := "Testing", description := ""
      file := "gcf/testing.pdf", size := "18.4 KB", date := 500
      remoteModified := some 1000, syncStatus := some SyncStatus.failed },
    by decide, rfl⟩,
   markTaskFailed_frame exFailedCache exTask
     ⟨{ id := "gcf-testing.pdf", title := "Testing", description := ""
        file := "gcf/testing.pdf", size := "18.4 KB", date := 500
        remoteModified := some 1000, syncStatus := some SyncStatus.failed },
      by decide, rfl⟩⟩



lemma map_remoteModified_modifyAt (f : DocumentRecord → DocumentRecord)
    (hf : ∀ d, (f d).remoteModified = d.remoteModified) :
    ∀ (l : List DocumentRecord) (i : Nat),
      (modifyAt f l i).map (fun r => r.remoteModified)
        = l.map (fun r => r.remoteModified) := by
  intro l
  induction l with
  | nil => intro i; rfl
  | cons a l ih =>
    intro i
    cases i with
    | zero => simp [modifyAt, hf]
    | succ n => simp [modifyAt, ih]

/-- C7 counterexample: with content-length 4 and a single 5-byte chunk,
the one onProgress invocation passes 125, outside 0-100. -/
theorem progress_percent_over_100_cex :
    (downloadFile "f.pdf"
        { response := HttpBody.ok (some "4") [5], writeOk := true, mtimeDate := 0 }).1
      = [("f.pdf", 125)]
    ∧ ¬ ((125 : Nat) ≤ 100) :=
  ⟨rfl, by decide⟩

/-- C7 amended: with a known non-zero total, one onProgress invocation
fires after each chunk, passing the rounding of cumulative bytes over the
total; the percentage lies within 0-100 whenever the bytes received do not
exceed the declared total; with an unknown total no invocation fires. -/
theorem download_progress_bounded (name : String) (t : Nat) (chunks : List Nat)
    (ht : 0 < t) (hle : chunks.sum ≤ t) :
    progressEvents name (some t) chunks
        = (cumSums 0 chunks).map (fun d => (name, jsRound100 d t))
      ∧ (progressEvents name (some t) chunks).length = chunks.length
      ∧ (∀ ev ∈ progressEvents name (some t) chunks, ev.1 = name ∧ ev.2 ≤ 100)
      ∧ (∀ chunks' : List Nat, progressEvents name none chunks' = []) := by
  have hne : ¬ t = 0 := by omega
  have heq : progressEvents name (some t) chunks
      = (cumSums 0 chunks).map (fun d => (name, jsRound100 d t)) :=
    progressEventsGo_truthy name t hne chunks 0
  refine ⟨heq, ?_, ?_, ?_⟩
  · rw [heq, List.length_map, cumSums_length]
  · intro ev hev
    rw [heq] at hev
    obtain ⟨d, hd, hde⟩ := List.mem_map.mp hev
    have hdle : d ≤ chunks.sum := by simpa using mem_cumSums_le chunks 0 d hd
    rw [← hde]
    exact ⟨rfl, jsRound100_le_100 d t ht (le_trans hdle hle)⟩
  · intro chunks'
    exact progressEventsGo_not_truthy name none rfl chunks' 0

/-- Witness for the amended C7 at a concrete download. -/
theorem download_progress_bounded_witness :
    ((0 : Nat) < 10 ∧ [3, 3, 4].sum ≤ 10)
    ∧ (progressEvents "f.pdf" (some 10) [3, 3, 4]
          = (cumSums 0 [3, 3, 4]).map (fun d => ("f.pdf", jsRound100 d 10))
        ∧ (progressEvents "f.pdf" (some 10) [3, 3, 4]).length = [3, 3, 4].length
        ∧ (∀ ev ∈ progressEvents "f.pdf" (some 10) [3, 3, 4], ev.1 = "f.pdf" ∧ ev.2 ≤ 100)
        ∧ (∀ chunks' : List Nat, progressEvents "f.pdf" none chunks' = [])) :=
  ⟨⟨by decide, by decide⟩,
   download_progress_bounded "f.pdf" 10 [3, 3, 4] (by decide) (by decide)⟩

/-- C6 counterexample: on a fresh cache, a failed first-ever download of
testing.pdf leaves a record whose download never succeeded (syncStatus
'failed', failedCount 1, downloadedCount 0) yet whose remoteModified is
already set to the manifest's modified value 1000. -/
theorem remoteModified_on_failed_placeholder_cex :
    ((syncRemoteDocuments exEnvFreshFail).written.getD emptyCache).gcf.map
        (fun r => (r.syncStatus, r.remoteModified))
      = [(some SyncStatus.failed, some (1000 : Int))]
    ∧ (syncRemoteDocuments exEnvFreshFail).result.failedCount = some 1
    ∧ (syncRemoteDocuments exEnvFreshFail).result.downloadedCount = some 0 :=
  ⟨rfl, rfl, rfl⟩

/-- C6 amended: a failed download of a record that already exists changes
no record's remoteModified; only the placeholder appended when no record
exists for the path carries remoteModified, set to the manifest entry's
modified value (and the success upsert sets it likewise). -/
theorem markTaskFailed_remoteModified (cache : Cache) (t : DownloadTask) :
    match (cacheArr cache t.category).findIdx? (fun d => d.file == t.relativePath) with
    | some _ =>
        ∀ cat, (cacheArr (markTaskFailed cache t) cat).map (fun r => r.remoteModified)
          = (cacheArr cache cat).map (fun r => r.remoteModified)
    | none =>
        cacheArr (markTaskFailed cache t) t.category
            = cacheArr cache t.category ++ [failedPlaceholder t]
          ∧ (failedPlaceholder t).remoteModified = some t.modified := by
  cases hfi : (cacheArr cache t.category).findIdx? (fun d => d.file == t.relativePath) with
  | none =>
    refine ⟨?_, rfl⟩
    unfold markTaskFailed markFailedList
    rw [cacheArr_setCacheArr_self, hfi]
  | some i =>
    intro cat
    by_cases hc : cat = t.category
    · subst hc
      unfold markTaskFailed markFailedList
      rw [cacheArr_setCacheArr_self, hfi]
      dsimp only
      exact map_remoteModified_modifyAt
        (fun d => { d with syncStatus := some SyncStatus.failed }) (fun d => rfl) _ _
    · unfold markTaskFailed
      rw [cacheArr_setCacheArr_ne _ _ _ _ hc]


lemma needsDownload_some_iff (e : ManifestEntry) (lf : DocumentRecord) :
    needsDownload e (some lf) = true ↔
      lf.syncStatus = some SyncStatus.failed
        ∨ e.modified > lf.remoteModified.getD lf.date := by
  simp [needsDownload]

lemma taskReason_some (lf : DocumentRecord) :
    taskReason (some lf)
      = if lf.syncStatus = some SyncStatus.failed then Reason.retry
        else Reason.updated := by
  unfold taskReason
  by_cases h : lf.syncStatus = some SyncStatus.failed
  · simp [h]
  · simp [h]

/-- C1: the plan contains a task for manifest entry e of category cat iff
the ordered cascade of main.js:411-412 holds — no record for the relative
path, or the record's syncStatus is 'failed', or the manifest modified is
strictly newer than remoteModified (falling back to date) — and the
task's reason is 'new', 'retry' or 'updated' according to the first
applicable check. -/
theorem compareFiles_plan_iff (m : Manifest) (c : Cache) (cat : Category)
    (e : ManifestEntry)
    (hnd : ((manifestEntries m cat).map (fun x => x.name)).Nodup)
    (he : e ∈ manifestEntries m cat) :
    ((∃ t ∈ compareFiles m c, t.category = cat ∧ t.name = e.name) ↔
      (match lastFind? (cacheArr c cat) (relPath cat e.name) with
       | none => True
       | some lf => lf.syncStatus = some SyncStatus.failed
           ∨ e.modified > lf.remoteModified.getD lf.date))
    ∧ (∀ t ∈ compareFiles m c, t.category = cat → t.name = e.name →
        t.reason = (match lastFind? (cacheArr c cat) (relPath cat e.name) with
          | none => Reason.new
          | some lf => if lf.syncStatus = some SyncStatus.failed
              then Reason.retry else Reason.updated)) := by
  have huniq : ∀ t ∈ compareFiles m c, t.category = cat → t.name = e.name →
      t = mkTask cat e (lastFind? (cacheArr c cat) (relPath cat e.name))
        ∧ needsDownload e (lastFind? (cacheArr c cat) (relPath cat e.name)) = true := by
    intro t ht hcat hname
    obtain ⟨cat', hpc⟩ := mem_compareFiles_cases ht
    have hcat' : cat' = cat := by rw [← planCategory_category hpc, hcat]
    subst hcat'
    obtain ⟨e', he', hn', ht'⟩ := mem_planCategory_elim hpc
    have hne : e'.name = e.name := by rw [ht'] at hname; exact hname
    have hee : e' = e := List.inj_on_of_nodup_map hnd he' he hne
    subst hee
    exact ⟨ht', hn'⟩
  constructor
  · constructor
    · rintro ⟨t, ht, hcat, hname⟩
      obtain ⟨-, hn⟩ := huniq t ht hcat hname
      cases hl : lastFind? (cacheArr c cat) (relPath cat e.name) with
      | none => trivial
      | some lf =>
        rw [hl] at hn
        exact (needsDownload_some_iff e lf).mp hn
    · intro hcascade
      have hn : needsDownload e (lastFind? (cacheArr c cat) (relPath cat e.name)) = true := by
        cases hl : lastFind? (cacheArr c cat) (relPath cat e.name) with
        | none => rfl
        | some lf =>
          rw [hl] at hcascade
          exact (needsDownload_some_iff e lf).mpr hcascade
      exact ⟨mkTask cat e (lastFind? (cacheArr c cat) (relPath cat e.name)),
        mem_compareFiles_of_planCategory (mem_planCategory_intro he hn), rfl, rfl⟩
  · intro t ht hcat hname
    obtain ⟨ht', -⟩ := huniq t ht hcat hname
    rw [ht']
    show taskReason (lastFind? (cacheArr c cat) (relPath cat e.name)) = _
    cases hl : lastFind? (cacheArr c cat) (relPath cat e.name) with
    | none => rfl
    | some lf => exact taskReason_some lf

/-- Witness for C1 at a concrete manifest and cache (record present with
syncStatus 'failed', so the cascade selects reason 'retry'). -/
theorem compareFiles_plan_iff_witness :
    ((∃ t ∈ compareFiles exManifest exFailedCache,
        t.category = Category.gcf
          ∧ t.name = ({ name := "testing.pdf", size := 18810, modified := 1000 } : ManifestEntry).name) ↔
      (match lastFind? (cacheArr exFailedCache Category.gcf)
          (relPath Category.gcf ({ name := "testing.pdf", size := 18810, modified := 1000 } : ManifestEntry).name) with
       | none => True
       | some lf => lf.syncStatus = some SyncStatus.failed
           ∨ ({ name := "testing.pdf", size := 18810, modified := 1000 } : ManifestEntry).modified
               > lf.remoteModified.getD lf.date))
    ∧ (∀ t ∈ compareFiles exManifest exFailedCache,
        t.category = Category.gcf →
        t.name = ({ name := "testing.pdf", size := 18810, modified := 1000 } : ManifestEntry).name →
        t.reason = (match lastFind? (cacheArr exFailedCache Category.gcf)
            (relPath Category.gcf ({ name := "testing.pdf", size := 18810, modified := 1000 } : ManifestEntry).name) with
          | none => Reason.new
          | some lf => if lf.syncStatus = some SyncStatus.failed
              then Reason.retry else Reason.updated)) :=
  compareFiles_plan_iff exManifest exFailedCache Category.gcf
    { name := "testing.pdf", size := 18810, modified := 1000 }
    (by decide) (by decide)


/-- C3: a second sync against an unchanged manifest and a cache already
reflecting it (every listed file found with syncStatus 'success' and
remoteModified equal to the manifest's modified) yields an empty plan and
the short-circuit result with downloaded = failed = total = 0, writing
nothing to disk (lastSync and the whole persisted cache untouched) and
emitting no events. -/
theorem sync_idempotent_second_run (env : SyncEnv) (m : Manifest) (c : Cache)
    (hm : env.fetch = FetchOutcome.ok m) (hd : env.diskCache = some c)
    (href : ∀ cat, ∀ e ∈ manifestEntries m cat,
      ∃ rec, lastFind? (cacheArr c cat) (relPath cat e.name) = some rec
        ∧ rec.syncStatus = some SyncStatus.success
        ∧ rec.remoteModified = some e.modified) :
    compareFiles m c = []
    ∧ syncRemoteDocuments env
        = { result := SyncResult.complete "All documents are up to date" 0 0 0
            written := none
            events := [] } := by
  have hcat : ∀ cat, planCategory cat (manifestEntries m cat) (cacheArr c cat) = [] := by
    intro cat
    unfold planCategory
    rw [List.filterMap_eq_nil_iff]
    intro e he
    obtain ⟨rec, hlf, hst, hrm⟩ := href cat e he
    unfold entryTask
    rw [hlf]
    dsimp only
    have hn : needsDownload e (some rec) = false := by
      simp [needsDownload, hst, hrm]
    rw [hn]
    rfl
  have hplan : compareFiles m c = [] := by
    unfold compareFiles
    rw [show planCategory Category.gcf m.gcf c.gcf = [] from hcat Category.gcf,
      show planCategory Category.policy m.policy c.policy = [] from hcat Category.policy]
    rfl
  refine ⟨hplan, ?_⟩
  unfold syncRemoteDocuments
  rw [hm, hd]
  dsimp only [Option.getD_some]
  rw [hplan]
  rfl

/-- Witness for C3 at the concrete second-run environment. -/
theorem sync_idempotent_second_run_witness :
    compareFiles exManifest exReflectingCache = []
    ∧ syncRemoteDocuments exEnvSecondRun
        = { result := SyncResult.complete "All documents are up to date" 0 0 0
            written := none
            events := [] } :=
  sync_idempotent_second_run exEnvSecondRun exManifest exReflectingCache rfl rfl
    (by
      intro cat e he
      cases cat with
      | gcf =>
        have he' : e = { name := "testing.pdf", size := 18810, modified := 1000 } := by
          simpa [manifestEntries, exManifest] using he
        subst he'
        exact ⟨{ id := "gcf-testing.pdf", title := "Testing", description := ""
                 file := "gcf/testing.pdf", size := "18.4 KB", date := 500
                 remoteModified := some 1000
                 syncStatus := some SyncStatus.success }, rfl, rfl, rfl⟩
      | policy => simp [manifestEntries, exManifest] at he)


lemma findRecord_withLastSync (c : Cache) (x : Option Int) (cat : Category) (p : String) :
    findRecord { c with lastSync := x } cat p = findRecord c cat p := by
  unfold findRecord
  rw [cacheArr_withLastSync]

lemma syncRemoteDocuments_eq_of_plan (env : SyncEnv) (m : Manifest)
    (hm : env.fetch = FetchOutcome.ok m)
    (hne : ¬ (compareFiles m (env.diskCache.getD emptyCache)).length = 0) :
    syncRemoteDocuments env
      = (let lc := env.diskCache.getD emptyCache
         let plan := compareFiles m lc
         let out := runTasks env.downloads plan.length plan 0 lc
         { result := SyncResult.complete
             (if out.2.2.1 > 0 then retryMessage out.2.1 out.2.2.1
              else successMessage out.2.1) out.2.1 out.2.2.1 plan.length
           written := some { out.1 with lastSync := some env.now }
           events := SyncEvent.status "downloading" plan.length 0 "" 0
             :: out.2.2.2 ++ [SyncEvent.complete out.2.1 out.2.2.1 plan.length] }) := by
  unfold syncRemoteDocuments
  rw [hm]
  dsimp only
  rw [if_neg hne]


/-- C5: for a non-empty plan, a download failure does not abort the loop:
every task still gets its pre-download status event, the result reports
success true with failed equal to the number of failed tasks (and
downloaded the rest of the plan), every failed task's path is recorded in
the written cache with syncStatus 'failed', and the summary message is the
retry message when failed > 0, which differs from the all-success
message. -/
theorem sync_partial_failure_continues (env : SyncEnv) (m : Manifest)
    (hm : env.fetch = FetchOutcome.ok m)
    (hne : ¬ compareFiles m (env.diskCache.getD emptyCache) = [])
    (hnd : ((compareFiles m (env.diskCache.getD emptyCache)).map
        (fun t => (t.category, t.relativePath))).Nodup) :
    (syncRemoteDocuments env).result.success = true
    ∧ (syncRemoteDocuments env).result.totalCount
        = some (compareFiles m (env.diskCache.getD emptyCache)).length
    ∧ (syncRemoteDocuments env).result.failedCount
        = some (((compareFiles m (env.diskCache.getD emptyCache)).enum.filter
            (taskFails env.downloads)).length)
    ∧ (syncRemoteDocuments env).result.downloadedCount
        = some ((compareFiles m (env.diskCache.getD emptyCache)).length
            - ((compareFiles m (env.diskCache.getD emptyCache)).enum.filter
                (taskFails env.downloads)).length)
    ∧ (syncRemoteDocuments env).events.countP isTaskStatusEvent
        = (compareFiles m (env.diskCache.getD emptyCache)).length
    ∧ (∀ jt ∈ (compareFiles m (env.diskCache.getD emptyCache)).enum,
        taskFails env.downloads jt = true →
        ∃ c', (syncRemoteDocuments env).written = some c'
          ∧ ∃ r, findRecord c' jt.2.category jt.2.relativePath = some r
              ∧ r.syncStatus = some SyncStatus.failed)
    ∧ (syncRemoteDocuments env).result.message
        = (if 0 < ((compareFiles m (env.diskCache.getD emptyCache)).enum.filter
              (taskFails env.downloads)).length
           then retryMessage
              ((compareFiles m (env.diskCache.getD emptyCache)).length
                - ((compareFiles m (env.diskCache.getD emptyCache)).enum.filter
                    (taskFails env.downloads)).length)
              (((compareFiles m (env.diskCache.getD emptyCache)).enum.filter
                  (taskFails env.downloads)).length)
           else successMessage (compareFiles m (env.diskCache.getD emptyCache)).length)
    ∧ (0 < ((compareFiles m (env.diskCache.getD emptyCache)).enum.filter
          (taskFails env.downloads)).length →
        ∀ d : Nat, ¬ (syncRemoteDocuments env).result.message = successMessage d) := by
  have hlen : ¬ (compareFiles m (env.diskCache.getD emptyCache)).length = 0 :=
    fun h0 => hne (List.length_eq_zero.mp h0)
  have hs := syncRemoteDocuments_eq_of_plan env m hm hlen
  dsimp only at hs
  obtain ⟨hc1, hc2⟩ := runTasks_counts env.downloads
    (compareFiles m (env.diskCache.getD emptyCache)).length
    (compareFiles m (env.diskCache.getD emptyCache)) 0 (env.diskCache.getD emptyCache)
  have hsc := runTasks_statusCount env.downloads
    (compareFiles m (env.diskCache.getD emptyCache)).length
    (compareFiles m (env.diskCache.getD emptyCache)) 0 (env.diskCache.getD emptyCache)
  have henum : (compareFiles m (env.diskCache.getD emptyCache)).enum
      = List.enumFrom 0 (compareFiles m (env.diskCache.getD emptyCache)) :=
    List.enum_eq_enumFrom
  rw [← henum] at hc2
  set plan := compareFiles m (env.diskCache.getD emptyCache) with hplandef
  set out := runTasks env.downloads plan.length plan 0 (env.diskCache.getD emptyCache)
    with houtdef
  set failLen := ((plan.enum.filter (taskFails env.downloads))).length with hfldef
  have hdl : out.2.1 = plan.length - failLen := by omega
  have hmsg : (syncRemoteDocuments env).result.message
      = (if 0 < failLen then retryMessage (plan.length - failLen) failLen
         else successMessage plan.length) := by
    rw [hs]
    show (if out.2.2.1 > 0 then retryMessage out.2.1 out.2.2.1
          else successMessage out.2.1) = _
    rw [hc2, hdl]
    by_cases h : 0 < failLen
    · rw [if_pos h, if_pos h]
    · rw [if_neg h, if_neg h]
      have h0 : failLen = 0 := by omega
      rw [h0, Nat.sub_zero]
  refine ⟨?_, ?_, ?_, ?_, ?_, ?_, hmsg, ?_⟩
  · rw [hs]
    rfl
  · rw [hs]
    rfl
  · rw [hs]
    show some out.2.2.1 = some failLen
    rw [hc2]
  · rw [hs]
    show some out.2.1 = some (plan.length - failLen)
    rw [hdl]
  · rw [hs]
    show List.countP isTaskStatusEvent
        (SyncEvent.status "downloading" plan.length 0 "" 0
          :: out.2.2.2 ++ [SyncEvent.complete out.2.1 out.2.2.1 plan.length])
      = plan.length
    simp only [List.countP_cons, List.countP_append, List.countP_nil, hsc, isTaskStatusEvent]
    norm_num
  · intro jt hjt hfail
    refine ⟨{ out.1 with lastSync := some env.now }, by rw [hs], ?_⟩
    obtain ⟨r, hr1, hr2⟩ := runTasks_failed_recorded env.downloads plan.length plan 0
      (env.diskCache.getD emptyCache) hnd jt (by rw [← henum]; exact hjt) hfail
    refine ⟨r, ?_, hr2⟩
    rw [findRecord_withLastSync]
    exact hr1
  · intro h d
    rw [hmsg, if_pos h]
    exact retryMessage_ne_successMessage _ _ d

/-- Witness for C5 at the concrete fresh-cache environment whose one
download fails. -/
theorem sync_partial_failure_continues_witness :
    (syncRemoteDocuments exEnvFreshFail).result.success = true
    ∧ (syncRemoteDocuments exEnvFreshFail).result.totalCount
        = some (compareFiles exManifest (exEnvFreshFail.diskCache.getD emptyCache)).length
    ∧ (syncRemoteDocuments exEnvFreshFail).result.failedCount
        = some (((compareFiles exManifest (exEnvFreshFail.diskCache.getD emptyCache)).enum.filter
            (taskFails exEnvFreshFail.downloads)).length)
    ∧ (syncRemoteDocuments exEnvFreshFail).result.downloadedCount
        = some ((compareFiles exManifest (exEnvFreshFail.diskCache.getD emptyCache)).length
            - ((compareFiles exManifest (exEnvFreshFail.diskCache.getD emptyCache)).enum.filter
                (taskFails exEnvFreshFail.downloads)).length)
    ∧ (syncRemoteDocuments exEnvFreshFail).events.countP isTaskStatusEvent
        = (compareFiles exManifest (exEnvFreshFail.diskCache.getD emptyCache)).length
    ∧ (∀ jt ∈ (compareFiles exManifest (exEnvFreshFail.diskCache.getD emptyCache)).enum,
        taskFails exEnvFreshFail.downloads jt = true →
        ∃ c', (syncRemoteDocuments exEnvFreshFail).written = some c'
          ∧ ∃ r, findRecord c' jt.2.category jt.2.relativePath = some r
              ∧ r.syncStatus = some SyncStatus.failed)
    ∧ (syncRemoteDocuments exEnvFreshFail).result.message
        = (if 0 < ((compareFiles exManifest (exEnvFreshFail.diskCache.getD emptyCache)).enum.filter
              (taskFails exEnvFreshFail.downloads)).length
           then retryMessage
              ((compareFiles exManifest (exEnvFreshFail.diskCache.getD emptyCache)).length
                - ((compareFiles exManifest (exEnvFreshFail.diskCache.getD emptyCache)).enum.filter
                    (taskFails exEnvFreshFail.downloads)).length)
              (((compareFiles exManifest (exEnvFreshFail.diskCache.getD emptyCache)).enum.filter
                  (taskFails exEnvFreshFail.downloads)).length)
           else successMessage (compareFiles exManifest (exEnvFreshFail.diskCache.getD emptyCache)).length)
    ∧ (0 < ((compareFiles exManifest (exEnvFreshFail.diskCache.getD emptyCache)).enum.filter
          (taskFails exEnvFreshFail.downloads)).length →
        ∀ d : Nat, ¬ (syncRemoteDocuments exEnvFreshFail).result.message = successMessage d) :=
  sync_partial_failure_continues exEnvFreshFail exManifest rfl (by decide) (by decide)


end NdaSync
